import Mathlib

/-!
Verification development for the conformal-lattice-planner repository.

The C++ sources are shallowly embedded:
doubles are modelled as rationals, vehicle/node identities as naturals,
pointer links between lattice nodes as optional node ids, and the
unordered maps of the source as association lists.  Functions that throw
runtime errors are modelled with Except or Option results.
-/

namespace ConformalLattice

/-- Vehicle record mirroring planner::Vehicle (vehicle.h).  The carla
transform and bounding box only feed the external map service, so they are
not reproduced here; the planning-relevant scalar fields are kept. -/
structure Vehicle where
  vid : Nat
  speed : ℚ
  policySpeed : ℚ
  acceleration : ℚ
  curvature : ℚ
deriving DecidableEq

/-- A node of the traffic lattice, mirroring WaypointNodeWithVehicle: a
stable id, the four neighbour links (absent links and links whose weak
pointer can no longer be locked are both represented by ids that do not
resolve in the node list), the distance from the lattice root, and the
optional occupying vehicle id. -/
structure NodeRec where
  nid : Nat
  front : Option Nat
  back : Option Nat
  left : Option Nat
  right : Option Nat
  distance : ℚ
  vehicle : Option Nat
deriving DecidableEq

/-- State of planner::TrafficLattice (traffic_lattice.cpp): the owned
nodes, the vehicle-to-nodes table (each entry lists the occupied node ids
from rear to head), and the current range of the underlying lattice. -/
structure TrafficLattice where
  nodes : List NodeRec
  table : List (Nat × List Nat)
  range : ℚ
deriving DecidableEq

/-- Resolve a node id on the lattice; none models a null / expired
pointer. -/
def findNode (tl : TrafficLattice) (n : Nat) : Option NodeRec :=
  tl.nodes.find? (fun r => r.nid = n)

/-- Occupant of a node (vehicle id stored at the node), none when the node
does not exist or is unoccupied. -/
def occupant (tl : TrafficLattice) (n : Nat) : Option Nat :=
  (findNode tl n).bind (fun r => r.vehicle)

/-- Assign the occupant field of the node with the given id. -/
def setVehicle (tl : TrafficLattice) (n : Nat) (v : Option Nat) : TrafficLattice :=
  { tl with nodes := tl.nodes.map (fun r => if r.nid = n then { r with vehicle := v } else r) }

/-- Whether a vehicle id is currently registered in the table. -/
def registered (tl : TrafficLattice) (v : Nat) : Bool :=
  tl.table.any (fun e => e.1 = v)

/-- The ordered node list recorded for a registered vehicle. -/
def vehicleNodes (tl : TrafficLattice) (v : Nat) : Option (List Nat) :=
  (tl.table.find? (fun e => e.1 = v)).map (fun e => e.2)

/-- Lock the left neighbour of a mid node, as mid_node->left().lock() in
TrafficLattice::addVehicle: the link must be present and must resolve. -/
def lockedLeft (tl : TrafficLattice) (r : NodeRec) : Option Nat :=
  match r.left with
  | some l => if (findNode tl l).isSome then some l else none
  | none => none

/-- Lock the right neighbour of a node, analogous to lockedLeft. -/
def lockedRight (tl : TrafficLattice) (r : NodeRec) : Option Nat :=
  match r.right with
  | some l => if (findNode tl l).isSome then some l else none
  | none => none

/-- Stop condition of the two collection walks in
TrafficLattice::addVehicle: the walk stops at the mid node or at a lane
neighbour (left/right) of the mid node. -/
def stopAtMid (tl : TrafficLattice) (mid : NodeRec) (cur : Nat) : Bool :=
  cur = mid.nid || lockedLeft tl mid = some cur || lockedRight tl mid = some cur

/-- Forward collection walk of TrafficLattice::addVehicle: starting from
the rear node, record nodes until the mid node (or a lane neighbour of it)
is met or the front link ends.  The fuel argument bounds the walk; the
C++ loop terminates because front links are acyclic. -/
def walkForward (tl : TrafficLattice) (mid : NodeRec) : Nat → NodeRec → List Nat
  | 0, _ => []
  | fuel + 1, cur =>
    if stopAtMid tl mid cur.nid then []
    else
      cur.nid :: (match cur.front with
        | none => []
        | some f =>
          match findNode tl f with
          | none => []
          | some fr => walkForward tl mid fuel fr)

/-- Backward collection walk of TrafficLattice::addVehicle, starting from
the head node and following back links. -/
def walkBackward (tl : TrafficLattice) (mid : NodeRec) : Nat → NodeRec → List Nat
  | 0, _ => []
  | fuel + 1, cur =>
    if stopAtMid tl mid cur.nid then []
    else
      cur.nid :: (match cur.back with
        | none => []
        | some b =>
          match findNode tl b with
          | none => []
          | some br => walkBackward tl mid fuel br)

/-- The node ids occupied by a vehicle whose rear, mid, and head snapped
to the given nodes: forward walk from the rear, the mid node, and the
reversed backward walk from the head (TrafficLattice::addVehicle). -/
def occupiedNodes (tl : TrafficLattice) (rear mid head : NodeRec) : List Nat :=
  let fuel := tl.nodes.length + 1
  walkForward tl mid fuel rear ++ [mid.nid] ++ (walkBackward tl mid fuel head).reverse

/-- The claiming loop of TrafficLattice::addVehicle: mark each collected
node with the vehicle id, stopping with a collision flag at the first node
that already has an occupant. -/
def claimNodes (v : Nat) : List Nat → TrafficLattice → Bool × TrafficLattice
  | [], tl => (false, tl)
  | n :: rest, tl =>
    if (occupant tl n).isSome then (true, tl)
    else claimNodes v rest (setVehicle tl n (some v))

/-- The rollback loop of TrafficLattice::addVehicle: clear every collected
node whose occupant is the vehicle being added. -/
def rollbackNodes (v : Nat) : List Nat → TrafficLattice → TrafficLattice
  | [], tl => tl
  | n :: rest, tl =>
    if occupant tl n = some v then rollbackNodes v rest (setVehicle tl n none)
    else rollbackNodes v rest tl

/-- TrafficLattice::addVehicle.  The three optional arguments are the
results of snapping the rear, mid, and head waypoints of the vehicle with
closestNode (the geometric snapping itself lives in the external map
service).  Returns the code (1 added, 0 not addable, -1 collision) and the
resulting lattice. -/
def addVehicle (tl : TrafficLattice) (v : Nat)
    (rearSnap midSnap headSnap : Option Nat) : Int × TrafficLattice :=
  if registered tl v then (0, tl)
  else
    match rearSnap.bind (findNode tl), midSnap.bind (findNode tl), headSnap.bind (findNode tl) with
    | some rearNode, some midNode, some headNode =>
      let ns := occupiedNodes tl rearNode midNode headNode
      let res := claimNodes v ns tl
      if res.1 then (-1, rollbackNodes v ns res.2)
      else (1, { res.2 with table := res.2.table ++ [(v, ns)] })
    | _, _, _ => (0, tl)

/-- The clearing loop used by deleteVehicle and moveTrafficForward: set
the occupant of every listed node to none. -/
def clearNodes : List Nat → TrafficLattice → TrafficLattice
  | [], tl => tl
  | n :: rest, tl => clearNodes rest (setVehicle tl n none)

/-- TrafficLattice::deleteVehicle: clear the recorded nodes of a
registered vehicle and remove it from the table. -/
def deleteVehicle (tl : TrafficLattice) (v : Nat) : Int × TrafficLattice :=
  match tl.table.find? (fun e => e.1 = v) with
  | none => (0, tl)
  | some e =>
    (1, { clearNodes e.2 tl with table := tl.table.filter (fun x => ¬ (x.1 = v)) })

/-- Well-formedness used throughout: node ids are unique in the node
list (the C++ lattice deduplicates nodes by waypoint id). -/
def nodupNids (tl : TrafficLattice) : Prop :=
  (tl.nodes.map (fun r => r.nid)).Nodup

instance (tl : TrafficLattice) : Decidable (nodupNids tl) := by
  unfold nodupNids; infer_instance

/-- Head node of a registered vehicle: the last node of the recorded list
(the vehicleHeadNode accessor of the traffic lattice; the recorded list
stores the occupied nodes from rear to head). -/
def vehicleHeadNode (tl : TrafficLattice) (v : Nat) : Option NodeRec :=
  (vehicleNodes tl v).bind (fun l => l.getLast?.bind (findNode tl))

/-- Rear node of a registered vehicle: the first node of the recorded
list. -/
def vehicleRearNode (tl : TrafficLattice) (v : Nat) : Option NodeRec :=
  (vehicleNodes tl v).bind (fun l => l.head?.bind (findNode tl))

/-- Step to the locked front neighbour of a node. -/
def lockedFront (tl : TrafficLattice) (r : NodeRec) : Option NodeRec :=
  r.front.bind (findNode tl)

/-- Step to the locked back neighbour of a node. -/
def lockedBack (tl : TrafficLattice) (r : NodeRec) : Option NodeRec :=
  r.back.bind (findNode tl)

/-- TrafficLattice::frontVehicle: walk front links from the start node
until a node with an occupant is found, returning the occupant and its
distance ahead of the start node. -/
def frontVehicleSearch (tl : TrafficLattice) (start : NodeRec) : Nat → NodeRec → Option (Nat × ℚ)
  | 0, _ => none
  | fuel + 1, cur =>
    match lockedFront tl cur with
    | none => none
    | some f =>
      match f.vehicle with
      | some u => some (u, f.distance - start.distance)
      | none => frontVehicleSearch tl start fuel f

/-- TrafficLattice::front: the vehicle ahead of the head node of a
registered vehicle.  The outer none models the runtime error thrown when
the query vehicle is not on the lattice. -/
def frontQuery (tl : TrafficLattice) (v : Nat) : Option (Option (Nat × ℚ)) :=
  if registered tl v then
    (vehicleHeadNode tl v).map (fun h => frontVehicleSearch tl h (tl.nodes.length + 1) h)
  else none

/-- Modelled from the spec: the Snapshot class (snapshot.h is not among
the sources) is the immutable triple of the ego vehicle, the agent
mapping (vehicle id to vehicle, ids distinct from the ego id), and the
embedded traffic lattice. -/
structure Snapshot where
  ego : Vehicle
  agents : List (Nat × Vehicle)
  trafficLattice : TrafficLattice
deriving DecidableEq

/-- Snapshot::agent lookup; none models the runtime error for an unknown
agent id. -/
def Snapshot.agent (s : Snapshot) (v : Nat) : Option Vehicle :=
  (s.agents.find? (fun e => e.1 = v)).map (fun e => e.2)

/-- Snapshot::vehicle lookup: the ego or one of the agents. -/
def Snapshot.vehicle (s : Snapshot) (v : Nat) : Option Vehicle :=
  if v = s.ego.vid then some s.ego else s.agent v

/-- The external intelligent driver (car-following) model, kept abstract:
the first function is the response to a lead vehicle
(speed, policy speed, lead speed, following distance), the second is the
free-flow response (speed, policy speed). -/
structure IDMModel where
  idmLead : ℚ → ℚ → ℚ → ℚ → ℚ
  idmFree : ℚ → ℚ → ℚ

/-- IDMTrafficSimulator::egoAcceleration
(idm_lattice_planner.cpp, lines 21-48): car-following response of the ego
against the front vehicle of its head node; none models a thrown
error. -/
def idmEgoAcceleration (idm : IDMModel) (s : Snapshot) : Option ℚ :=
  (frontQuery s.trafficLattice s.ego.vid).bind (fun lead =>
    match lead with
    | some lu =>
      (s.vehicle lu.1).map (fun lv =>
        idm.idmLead s.ego.speed s.ego.policySpeed lv.speed lu.2)
    | none => some (idm.idmFree s.ego.speed s.ego.policySpeed))

/-- IDMTrafficSimulator::agentAcceleration
(idm_lattice_planner.cpp, lines 50-70): car-following response of an
agent against its own front vehicle. -/
def idmAgentAcceleration (idm : IDMModel) (s : Snapshot) (agent : Nat) : Option ℚ :=
  (frontQuery s.trafficLattice agent).bind (fun lead =>
    (s.vehicle agent).bind (fun av =>
      match lead with
      | some lu =>
        (s.vehicle lu.1).map (fun lv =>
          idm.idmLead av.speed av.policySpeed lv.speed lu.2)
      | none => some (idm.idmFree av.speed av.policySpeed)))

/-- ConstAccelTrafficSimulator::egoAcceleration
(spatiotemporal_lattice_planner.h, lines 57-59): the stored ego
acceleration, used verbatim. -/
def constAccelEgoAcceleration (s : Snapshot) : ℚ :=
  s.ego.acceleration

/-- ConstAccelTrafficSimulator::agentAcceleration
(spatiotemporal_lattice_planner.h, lines 61-63): the stored acceleration
field of the agent, used verbatim. -/
def constAccelAgentAcceleration (s : Snapshot) (agent : Nat) : Option ℚ :=
  (s.agent agent).map (fun av => av.acceleration)

/-- Errors of the lane-change query. -/
inductive LaneQueryError where
  | notOnLattice
  | topologyMismatch
deriving DecidableEq

/-- The stepping loop of TrafficLattice::isChangingLane: follow front
links a given number of steps, failing when a front link is missing. -/
def frontStepsLoop (tl : TrafficLattice) : Nat → NodeRec → Except LaneQueryError NodeRec
  | 0, cur => .ok cur
  | k + 1, cur =>
    match lockedFront tl cur with
    | none => .error .topologyMismatch
    | some nxt => frontStepsLoop tl k nxt

/-- TrafficLattice::isChangingLane (traffic_lattice.cpp, lines 376-417):
walk from the rear node as many front steps as the vehicle occupies
nodes, then classify the reached node against the head node. -/
def isChangingLane (tl : TrafficLattice) (v : Nat) : Except LaneQueryError Int :=
  match tl.table.find? (fun e => e.1 = v) with
  | none => .error .notOnLattice
  | some e =>
    match e.2.head?.bind (findNode tl), e.2.getLast?.bind (findNode tl) with
    | some rearNode, some headNode =>
      match frontStepsLoop tl e.2.length rearNode with
      | .error err => .error err
      | .ok fn =>
        if fn.nid = headNode.nid then .ok 0
        else if lockedLeft tl fn = some headNode.nid then .ok (-1)
        else if lockedRight tl fn = some headNode.nid then .ok 1
        else .error .topologyMismatch
    | _, _ => .error .topologyMismatch

/-- Pure walk used to state the specification of isChangingLane: iterate
the locked front step. -/
def walkSteps (tl : TrafficLattice) : Nat → NodeRec → Option NodeRec
  | 0, cur => some cur
  | k + 1, cur => (lockedFront tl cur).bind (walkSteps tl k)

/-- External collaborators of TrafficLattice::moveTrafficForward, kept
abstract: W is the waypoint handle type of the map service, R the raw
per-vehicle pose data (transform and bounding box).  waypointsOf is the
rear/mid/head waypoint computation of vehicleWaypoints, startAndRange is
latticeStartAndRange (none models its roads-not-on-local-chain error),
closestNode is the base-lattice query, and shortenOp/extendOp are the
base-lattice shorten and extend operations (lattice.h is not among the
sources). -/
structure LatticeOracle (W R : Type) where
  waypointsOf : R → W × W × W
  startAndRange : List (Nat × R) → Option (W × ℚ)
  closestNode : TrafficLattice → W → Option Nat
  shortenOp : ℚ → TrafficLattice → TrafficLattice
  extendOp : ℚ → TrafficLattice → TrafficLattice

/-- One registration step of TrafficLattice::registerVehicles: snap the
three waypoints of the vehicle on the current lattice and add it. -/
def regStep {W R : Type} (o : LatticeOracle W R) (tl : TrafficLattice)
    (v : Nat × R) : Int × TrafficLattice :=
  let w := o.waypointsOf v.2
  addVehicle tl v.1 (o.closestNode tl w.1) (o.closestNode tl w.2.1) (o.closestNode tl w.2.2)

/-- The loop of TrafficLattice::registerVehicles: register the vehicles in
order, recording dropped vehicles (code 0) and stopping with false at the
first collision (code -1). -/
def registerLoop {W R : Type} (o : LatticeOracle W R) :
    List (Nat × R) → TrafficLattice → List Nat → Bool × TrafficLattice × List Nat
  | [], tl, removed => (true, tl, removed)
  | v :: rest, tl, removed =>
    let res := regStep o tl v
    if res.1 = 0 then registerLoop o rest res.2 (removed ++ [v.1])
    else if res.1 = -1 then (false, res.2, removed)
    else registerLoop o rest res.2 removed

/-- TrafficLattice::registerVehicles: clear the table, then run the
registration loop. -/
def registerVehicles {W R : Type} (o : LatticeOracle W R) (tl : TrafficLattice)
    (vs : List (Nat × R)) : Bool × TrafficLattice × List Nat :=
  registerLoop o vs { tl with table := [] } []

/-- The trace of addVehicle codes produced during registration, stopping
after the first collision, used to state the no-collision property. -/
def regTrace {W R : Type} (o : LatticeOracle W R) :
    List (Nat × R) → TrafficLattice → List Int
  | [], _ => []
  | v :: rest, tl =>
    let res := regStep o tl v
    if res.1 = -1 then [res.1] else res.1 :: regTrace o rest res.2

/-- The clearing stage of TrafficLattice::moveTrafficForward: clear the
occupant of every node recorded in the table, then clear the table. -/
def clearRegistered (tl : TrafficLattice) : TrafficLattice :=
  { tl.table.foldl (fun s e => clearNodes e.2 s) tl with table := [] }

/-- Boolean equality of id sets, as the unordered_set comparison of
TrafficLattice::moveTrafficForward. -/
def sameIdSet (a b : List Nat) : Bool :=
  a.all (fun x => x ∈ b) && b.all (fun x => x ∈ a)

/-- Errors thrown by TrafficLattice::moveTrafficForward: the set-mismatch
error, the failure to find the new start node on the existing lattice,
and failures inside latticeStartAndRange (road sorting). -/
inductive MtfError where
  | setMismatch
  | startNotFound
  | startAndRangeFailed
deriving DecidableEq

/-- TrafficLattice::moveTrafficForward (traffic_lattice.cpp, lines
565-647): require the updated vehicle set to equal the registered set,
clear all recorded occupancies, recompute the root and range, shorten
then extend the lattice, and re-register every vehicle.  The returned
boolean is true iff no collision was detected. -/
def moveTrafficForward {W R : Type} (o : LatticeOracle W R) (tl : TrafficLattice)
    (vs : List (Nat × R)) : Except MtfError (Bool × TrafficLattice × List Nat) :=
  if sameIdSet (tl.table.map (fun e => e.1)) (vs.map (fun v => v.1)) = false then
    .error .setMismatch
  else
    let tl1 := clearRegistered tl
    match o.startAndRange vs with
    | none => .error .startAndRangeFailed
    | some sr =>
      match (o.closestNode tl1 sr.1).bind (findNode tl1) with
      | none => .error .startNotFound
      | some startNode =>
        let tl2 := o.extendOp sr.2 (o.shortenOp (tl1.range - startNode.distance) tl1)
        .ok (registerVehicles o tl2 vs)

/-- Well-formedness of the occupancy overlay: every occupied node is
recorded in the table entry of its occupant. -/
def occupancyWithinTable (tl : TrafficLattice) : Prop :=
  ∀ r ∈ tl.nodes, r.vehicle = none ∨ ∃ e ∈ tl.table, r.vehicle = some e.1 ∧ r.nid ∈ e.2

instance (tl : TrafficLattice) : Decidable (occupancyWithinTable tl) := by
  unfold occupancyWithinTable; infer_instance

/-- A parent entry of a station: the snapshot stored under the parent,
the cost-to-come through this parent, and the parent station id (the C++
tuple of Snapshot, double, and a weak station pointer). -/
structure ParentLink where
  snapshot : Snapshot
  costToCome : ℚ
  parentId : Nat
deriving DecidableEq

/-- A child entry of a station: the stage cost of the edge and the child
station id (the continuous path object lives in the external path
generator and is not reproduced). -/
structure ChildLink where
  stageCost : ℚ
  childId : Nat
deriving DecidableEq

/-- A search station of the IDM lattice planner: the node id it is pinned
to, the distance of that node from the lattice root, the owned snapshot,
the three optional parents with the cached optimal parent, and the three
optional children. -/
structure Station where
  sid : Nat
  nodeDistance : ℚ
  snapshot : Snapshot
  leftParent : Option ParentLink
  backParent : Option ParentLink
  rightParent : Option ParentLink
  optimalParent : Option ParentLink
  frontChild : Option ChildLink
  leftChild : Option ChildLink
  rightChild : Option ChildLink
deriving DecidableEq

/-- Whether the station has any child (a station without children is a
terminal). -/
def Station.hasChild (s : Station) : Bool :=
  s.frontChild.isSome || s.leftChild.isSome || s.rightChild.isSome

/-- Whether the station has any parent (only the root has none). -/
def Station.hasParent (s : Station) : Bool :=
  s.leftParent.isSome || s.backParent.isSome || s.rightParent.isSome

/-- Station::updateOptimalParent (idm_lattice_planner.cpp, lines 72-100):
seed the optimal parent with the cached one (or the first existing parent
in the order left, back, right), then sweep the left, right, and back
parents in this order, replacing the candidate whenever the swept parent
has a cost-to-come less than or equal to the candidate.  The snapshot of
the station is set from the final optimal parent.  none models the
runtime error thrown when no parent exists. -/
def updateOptimalParent (s : Station) : Option Station :=
  let seed : Option ParentLink :=
    match s.optimalParent with
    | some p => some p
    | none =>
      match s.leftParent with
      | some p => some p
      | none =>
        match s.backParent with
        | some p => some p
        | none => s.rightParent
  match seed with
  | none => none
  | some p0 =>
    let p1 := match s.leftParent with
      | some lp => if lp.costToCome ≤ p0.costToCome then lp else p0
      | none => p0
    let p2 := match s.rightParent with
      | some rp => if rp.costToCome ≤ p1.costToCome then rp else p1
      | none => p1
    let p3 := match s.backParent with
      | some bp => if bp.costToCome ≤ p2.costToCome then bp else p2
      | none => p2
    some { s with optimalParent := some p3, snapshot := p3.snapshot }

/-- Station::updateLeftParent: store the left parent entry and refresh
the optimal parent. -/
def updateLeftParent (s : Station) (snap : Snapshot) (c : ℚ) (pid : Nat) : Option Station :=
  updateOptimalParent { s with leftParent := some ⟨snap, c, pid⟩ }

/-- Station::updateBackParent: store the back parent entry and refresh
the optimal parent. -/
def updateBackParent (s : Station) (snap : Snapshot) (c : ℚ) (pid : Nat) : Option Station :=
  updateOptimalParent { s with backParent := some ⟨snap, c, pid⟩ }

/-- Station::updateRightParent: store the right parent entry and refresh
the optimal parent. -/
def updateRightParent (s : Station) (snap : Snapshot) (c : ℚ) (pid : Nat) : Option Station :=
  updateOptimalParent { s with rightParent := some ⟨snap, c, pid⟩ }

/-- Choice between two optional parents preferring the first on a cost
tie; used to state the observed tie-break of updateOptimalParent. -/
def pickMinParent : Option ParentLink → Option ParentLink → Option ParentLink
  | none, q => q
  | some p, none => some p
  | some p, some q => if p.costToCome ≤ q.costToCome then some p else some q

/-- The minimum-cost current parent of a station with the tie order back
first, then right, then left. -/
def minParentBRL (s : Station) : Option ParentLink :=
  pickMinParent s.backParent (pickMinParent s.rightParent s.leftParent)

/-- Specification of one optimal-parent refresh: the minimum-cost current
parent under the back, right, left tie order, except that a previously
cached optimal entry with strictly smaller cost is retained. -/
def specOptimalAfterUpdate (s : Station) : Option ParentLink :=
  match s.optimalParent, minParentBRL s with
  | none, m => m
  | some p0, none => some p0
  | some p0, some m => if m.costToCome ≤ p0.costToCome then some m else some p0

/-- Errors of the terminal-scoring and path-selection functions of the
IDM lattice planner. -/
inductive PlanError where
  | notTerminal
  | negativeSpeed
  | noOptimalParent
  | noTerminal
  | graphRootOnly
deriving DecidableEq

/-- Station::costToCome: the cost stored under the cached optimal parent;
an error when no optimal parent exists. -/
def Station.costToCome (s : Station) : Except PlanError ℚ :=
  match s.optimalParent with
  | none => .error .noOptimalParent
  | some p => .ok p.costToCome

/-- Truncation of a rational toward zero, as the C++ static_cast from
double to int. -/
def truncToInt (q : ℚ) : ℤ :=
  if 0 ≤ q then ⌊q⌋ else -⌊-q⌋

/-- The terminal speed cost table of IDMLatticePlanner::terminalSpeedCost
(buckets of tenths of the speed-to-policy quotient); keys outside 0..9
yield 0 as the default-inserting map access of the source does. -/
def speedCostMap (i : ℤ) : ℚ :=
  if i = 0 ∨ i = 1 ∨ i = 2 then 4
  else if i = 3 ∨ i = 4 then 3
  else if i = 5 ∨ i = 6 then 2
  else if i = 7 ∨ i = 8 then 1
  else 0

/-- IDMLatticePlanner::terminalSpeedCost (idm_lattice_planner.cpp, lines
739-777): reject non-terminals and negative speeds, return 0 when the
ego speed reaches the policy speed, and otherwise look up the bucket of
the speed quotient. -/
def terminalSpeedCost (s : Station) : Except PlanError ℚ :=
  if s.hasChild then .error .notTerminal
  else if s.snapshot.ego.speed < 0 ∨ s.snapshot.ego.policySpeed < 0 then .error .negativeSpeed
  else
    let frac := s.snapshot.ego.speed / s.snapshot.ego.policySpeed
    if 1 ≤ frac then .ok 0
    else .ok (speedCostMap (truncToInt (frac * 10)))

/-- The terminal distance cost table of
IDMLatticePlanner::terminalDistanceCost. -/
def distanceCostMap (i : ℤ) : ℚ :=
  if 0 ≤ i ∧ i ≤ 7 then 20
  else if i = 8 then 10
  else if i = 9 then 5
  else 0

/-- IDMLatticePlanner::terminalDistanceCost (idm_lattice_planner.cpp,
lines 779-821).  The effective spatial horizon and the distances of the
planner root and of the root child are passed as arguments because they
are read from planner state. -/
def terminalDistanceCost (spatialHorizonCfg rootDistance rootChildDistance : ℚ)
    (s : Station) : Except PlanError ℚ :=
  if s.hasChild then .error .notTerminal
  else
    let horizon := spatialHorizonCfg - 50 + rootChildDistance - rootDistance
    let frac := (s.nodeDistance - rootDistance) / horizon
    if 1 ≤ frac then .ok 0
    else .ok (distanceCostMap (truncToInt (frac * 10)))

/-- IDMLatticePlanner::costFromRootToTerminal (idm_lattice_planner.cpp,
lines 823-841): cost-to-come plus the two terminal costs. -/
def costFromRootToTerminal (spatialHorizonCfg rootDistance rootChildDistance : ℚ)
    (s : Station) : Except PlanError ℚ :=
  if s.hasChild then .error .notTerminal
  else do
    let pc ← s.costToCome
    let sc ← terminalSpeedCost s
    let dc ← terminalDistanceCost spatialHorizonCfg rootDistance rootChildDistance s
    pure (pc + sc + dc)

/-- The running optimal cost of the terminal-selection loop; the seed
value is the 1.0e10 initializer of selectOptimalPath. -/
def accCost : Option (Station × ℚ) → ℚ
  | none => 10000000000
  | some sc => sc.2

/-- The terminal-selection loop of IDMLatticePlanner::selectOptimalPath
(idm_lattice_planner.cpp, lines 843-877): skip stations with children,
score the rest, and keep the station with the strictly smallest cost seen
so far. -/
def selectLoop (costOf : Station → Except PlanError ℚ) :
    List Station → Option (Station × ℚ) → Except PlanError (Option (Station × ℚ))
  | [], acc => .ok acc
  | s :: rest, acc =>
    if s.hasChild then selectLoop costOf rest acc
    else
      match costOf s with
      | .error e => .error e
      | .ok c =>
        if c < accCost acc then selectLoop costOf rest (some (s, c))
        else selectLoop costOf rest acc

/-- The terminal chosen by IDMLatticePlanner::selectOptimalPath: the
result of the selection loop, with the errors thrown when no terminal was
found or when the chosen terminal has no parent (the graph is only the
root). -/
def selectOptimalTerminal (costOf : Station → Except PlanError ℚ)
    (tbl : List Station) : Except PlanError Station :=
  match selectLoop costOf tbl none with
  | .error e => .error e
  | .ok none => .error .noTerminal
  | .ok (some sc) => if sc.1.hasParent then .ok sc.1 else .error .graphRootOnly

/-- The hard-coded speed intervals of the spatiotemporal planner
(Vertex::kSpeedIntervalsPerStation_): bounds in metres per second given
exactly as the decimal literals of the source. -/
def kSpeedIntervals : List (ℚ × ℚ) :=
  [(0, 134112 / 10000), (134112 / 10000, 268224 / 10000), (268224 / 10000, 402336 / 10000)]

/-- The scanning loop of Vertex::speedIntervalIdx: return the index of
the first interval whose upper bound exceeds the speed. -/
def findIntervalIdx (speed : ℚ) : List (ℚ × ℚ) → Nat → Option Nat
  | [], _ => none
  | iv :: rest, i => if speed < iv.2 then some i else findIntervalIdx speed rest (i + 1)

/-- Vertex::speedIntervalIdx (spatiotemporal_lattice_planner.h, lines
314-325): negative speeds and speeds beyond the last interval yield
none. -/
def speedIntervalIdx (speed : ℚ) : Option Nat :=
  if speed < 0 then none
  else findIntervalIdx speed kSpeedIntervals 0

/-- The terminal speed cost table as the specification words it, written
independently of the source table: buckets 0 to 2 cost 4, buckets 3 and 4
cost 3, buckets 5 and 6 cost 2, buckets 7 and 8 cost 1, bucket 9 costs
0. -/
def specSpeedBucketCost (i : ℤ) : ℚ :=
  if 0 ≤ i ∧ i ≤ 2 then 4
  else if i = 3 ∨ i = 4 then 3
  else if i = 5 ∨ i = 6 then 2
  else if i = 7 ∨ i = 8 then 1
  else 0

/-- The lane-change classification as the specification words it: walk as
many front steps as the vehicle occupies nodes starting from the rear
node, then return 0, -1, or 1 according to whether the reached node, its
left neighbour, or its right neighbour is the head node, and fail with a
topology mismatch otherwise (also when the walk runs out of front
links). -/
def specChangingLane (tl : TrafficLattice) (nodeIds : List Nat) : Except LaneQueryError Int :=
  match nodeIds.head?.bind (findNode tl), nodeIds.getLast?.bind (findNode tl) with
  | some rearNode, some headNode =>
    match walkSteps tl nodeIds.length rearNode with
    | none => .error .topologyMismatch
    | some fn =>
      if fn.nid = headNode.nid then .ok 0
      else if lockedLeft tl fn = some headNode.nid then .ok (-1)
      else if lockedRight tl fn = some headNode.nid then .ok 1
      else .error .topologyMismatch
  | _, _ => .error .topologyMismatch

deriving instance DecidableEq for Except

/-! Concrete fixtures used by the witness and counterexample theorems. -/

/-- A single occupied node used by the registered-vehicle witness. -/
def wOccNode : NodeRec := ⟨1, none, none, none, none, 0, some 7⟩

/-- A one-node lattice with vehicle 7 registered. -/
def wTL : TrafficLattice := ⟨[wOccNode], [(7, [1])], 10⟩

/-- Two chained nodes with vehicle 2 on the first, for the simulator
counterexample. -/
def cNode1 : NodeRec := ⟨1, some 2, none, none, none, 0, some 2⟩

/-- Second node of the simulator counterexample lattice. -/
def cNode2 : NodeRec := ⟨2, none, some 1, none, none, 1, none⟩

/-- Snapshot whose agent 2 has stored acceleration 1 and no lead
vehicle. -/
def cSnap : Snapshot :=
  ⟨⟨0, 0, 0, 5, 0⟩, [(2, ⟨2, 3, 4, 1, 0⟩)], ⟨[cNode1, cNode2], [(2, [1])], 10⟩⟩

/-- A car-following model that always outputs 0, to contrast with stored
accelerations. -/
def idmZero : IDMModel := ⟨fun _ _ _ _ => 0, fun _ _ => 0⟩

/-- Terminal station with ego speed 35 and policy speed 100 (bucket 3 of
the speed cost). -/
def wStation : Station :=
  ⟨3, 0, ⟨⟨0, 35, 100, 0, 0⟩, [], ⟨[], [], 0⟩⟩, none, none, none,
   some ⟨⟨⟨0, 35, 100, 0, 0⟩, [], ⟨[], [], 0⟩⟩, 2, 0⟩, none, none, none⟩

/-- Dummy vehicle for the tie-break counterexample. -/
def exVehicle : Vehicle := ⟨0, 0, 0, 0, 0⟩

/-- First snapshot of the tie-break counterexample (ego id 0). -/
def exSnapA : Snapshot := ⟨exVehicle, [], ⟨[], [], 0⟩⟩

/-- Second snapshot of the tie-break counterexample (ego id 1), distinct
from exSnapA. -/
def exSnapB : Snapshot := ⟨⟨1, 0, 0, 0, 0⟩, [], ⟨[], [], 0⟩⟩

/-- A station with no parents yet. -/
def exStation : Station := ⟨0, 0, exSnapA, none, none, none, none, none, none, none⟩

/-- The station after gaining a left parent of cost 5. -/
def exStation1 : Option Station := updateLeftParent exStation exSnapA 5 1

/-- The station after additionally gaining a right parent of cost 5,
tying the left parent. -/
def exStation2 : Option Station :=
  exStation1.bind (fun s => updateRightParent s exSnapB 5 2)

/-- Snapshot whose ego runs at policy speed, for the path-selection
witness. -/
def wSnapFast : Snapshot := ⟨⟨0, 10, 10, 0, 0⟩, [], ⟨[], [], 0⟩⟩

/-- Snapshot whose ego runs at half the policy speed. -/
def wSnapSlow : Snapshot := ⟨⟨0, 5, 10, 0, 0⟩, [], ⟨[], [], 0⟩⟩

/-- Terminal station at distance 100 with cost-to-come 1 (total cost 21
under the witness parameters). -/
def wTermA : Station :=
  ⟨10, 100, wSnapFast, none, some ⟨wSnapFast, 1, 0⟩, none, some ⟨wSnapFast, 1, 0⟩,
   none, none, none⟩

/-- Terminal station at distance 150 with cost-to-come 2 (total cost 4
under the witness parameters), the cheaper terminal. -/
def wTermB : Station :=
  ⟨11, 150, wSnapSlow, none, some ⟨wSnapSlow, 2, 0⟩, none, some ⟨wSnapSlow, 2, 0⟩,
   none, none, none⟩

def walkNodupOk (tl : TrafficLattice) (a b c : Option Nat) : Bool :=
  match a.bind (findNode tl), b.bind (findNode tl), c.bind (findNode tl) with
  | some rn, some mn, some hn2 => decide (occupiedNodes tl rn mn hn2).Nodup
  | _, _, _ => true

def w4n1 : NodeRec := ⟨1, some 2, none, none, none, 0, none⟩

def w4n2 : NodeRec := ⟨2, some 3, some 1, none, none, 1, some 7⟩

def w4n3 : NodeRec := ⟨3, none, some 2, none, none, 2, none⟩

def w4TL : TrafficLattice := ⟨[w4n1, w4n2, w4n3], [(7, [2])], 10⟩

def w7TL2 : TrafficLattice :=
  ⟨[⟨1, some 2, none, none, none, 0, some 9⟩, w4n2, w4n3], [(7, [2]), (9, [1])], 10⟩

def w6n1 : NodeRec := ⟨1, some 2, none, none, none, 0, some 5⟩

def w6n2 : NodeRec := ⟨2, some 3, some 1, none, none, 1, some 5⟩

def w6n3 : NodeRec := ⟨3, none, some 2, none, none, 2, none⟩

def w6TL : TrafficLattice := ⟨[w6n1, w6n2, w6n3], [(5, [1, 3])], 10⟩

/-!
Theorems.  The rational operations of core Lean are made semireducible so
that witness theorems can evaluate the embedded functions with decide.
-/

/-- A concrete lattice oracle over natural-number waypoints and roads,
used to instantiate the moveTrafficForward development on a closed
example. -/
def wOracle : LatticeOracle Nat Nat :=
  { waypointsOf := fun r => (r, r, r)
    startAndRange := fun _ => some (1, 5)
    closestNode := fun _ w => some w
    shortenOp := fun _ s => s
    extendOp := fun _ s => s }

def w5n1 : NodeRec :=
  { nid := 1, front := some 2, back := none, left := none, right := none,
    distance := 0, vehicle := none }

def w5n2 : NodeRec :=
  { nid := 2, front := some 3, back := some 1, left := none, right := none,
    distance := 1, vehicle := some 9 }

def w5n3 : NodeRec :=
  { nid := 3, front := none, back := some 2, left := none, right := none,
    distance := 2, vehicle := none }

def wTL5 : TrafficLattice :=
  { nodes := [w5n1, w5n2, w5n3], table := [(9, [2])], range := 10 }

def wVs5 : List (Nat × Nat) := [(9, 2)]

attribute [local semireducible] Rat.add Rat.sub Rat.mul Rat.inv

/-- C9: speedIntervalIdx returns an interval index exactly for speeds in
the interval from 0 inclusive to 40.2336 exclusive, and each of the three
intervals is left-closed and right-open, so a speed exactly at an
interior boundary such as 13.4112 belongs to the upper interval. -/
theorem speedIntervalIdx_spec (s : ℚ) :
    ((speedIntervalIdx s).isSome ↔ (0 ≤ s ∧ s < 402336 / 10000)) ∧
    (speedIntervalIdx s = some 0 ↔ (0 ≤ s ∧ s < 134112 / 10000)) ∧
    (speedIntervalIdx s = some 1 ↔ (134112 / 10000 ≤ s ∧ s < 268224 / 10000)) ∧
    (speedIntervalIdx s = some 2 ↔ (268224 / 10000 ≤ s ∧ s < 402336 / 10000)) := by
  simp only [speedIntervalIdx, kSpeedIntervals, findIntervalIdx]
  split_ifs <;>
    refine ⟨?_, ?_, ?_, ?_⟩ <;>
    simp_all <;>
    first
      | linarith
      | exact fun h => absurd h (by linarith)

/-- C10: adding a vehicle whose id is already registered returns 0 and
leaves the traffic lattice completely unchanged; the existing
registration is not updated. -/
theorem addVehicle_registered_noop (tl : TrafficLattice) (v : Nat)
    (a b c : Option Nat) (h : registered tl v = true) :
    addVehicle tl v a b c = (0, tl) := by
  unfold addVehicle
  simp [h]

/-- Witness for C10 at a concrete lattice with vehicle 7 registered. -/
theorem addVehicle_registered_noop_witness :
    registered wTL 7 = true ∧ addVehicle wTL 7 (some 1) (some 1) (some 1) = (0, wTL) :=
  ⟨by decide, addVehicle_registered_noop wTL 7 (some 1) (some 1) (some 1) (by decide)⟩

/-- C3 amended: in the spatiotemporal variant the constant-acceleration
simulator returns the stored ego acceleration verbatim, and for every
agent it likewise returns the stored acceleration field of the agent
rather than recomputing it from the car-following model; in particular
both results are independent of the traffic lattice that a car-following
recomputation would consult. -/
theorem constAccel_stored_fields (s : Snapshot) (agent : Nat) (tl : TrafficLattice) :
    constAccelEgoAcceleration s = s.ego.acceleration ∧
    constAccelAgentAcceleration s agent = (s.agent agent).map (fun av => av.acceleration) ∧
    constAccelEgoAcceleration { s with trafficLattice := tl } = constAccelEgoAcceleration s ∧
    constAccelAgentAcceleration { s with trafficLattice := tl } agent =
      constAccelAgentAcceleration s agent :=
  ⟨rfl, rfl, rfl, rfl⟩

/-- Counterexample for C3 as stated: on a concrete snapshot the
constant-acceleration simulator returns the stored acceleration 1 for
agent 2, while the car-following recomputation of the IDM simulator
(instantiated with a model that returns 0) yields 0, so the agent
acceleration is not recomputed from the car-following model. -/
theorem constAccelAgent_counterexample :
    constAccelAgentAcceleration cSnap 2 = some 1 ∧
    idmAgentAcceleration idmZero cSnap 2 = some 0 ∧
    constAccelAgentAcceleration cSnap 2 ≠ idmAgentAcceleration idmZero cSnap 2 :=
  ⟨by decide, by decide, by decide⟩

/-- The source cost table and the specification cost table for terminal
speeds agree on every bucket. -/
theorem speedCostMap_eq_specBucket (i : ℤ) : speedCostMap i = specSpeedBucketCost i := by
  unfold speedCostMap specSpeedBucketCost
  split_ifs <;> first | rfl | (exfalso; omega)

/-- C8: for a terminal station with non-negative ego speed and positive
policy speed, the terminal speed cost is 0 once the speed quotient
reaches 1 and otherwise is the specification bucket value at the floor of
ten times the quotient (buckets 0 to 2 cost 4, 3 and 4 cost 3, 5 and 6
cost 2, 7 and 8 cost 1, 9 costs 0). -/
theorem terminalSpeedCost_spec (s : Station)
    (hc : s.hasChild = false)
    (h0 : 0 ≤ s.snapshot.ego.speed)
    (h1 : 0 < s.snapshot.ego.policySpeed) :
    terminalSpeedCost s =
      .ok (if 1 ≤ s.snapshot.ego.speed / s.snapshot.ego.policySpeed then 0
           else specSpeedBucketCost ⌊s.snapshot.ego.speed / s.snapshot.ego.policySpeed * 10⌋) := by
  have htr : truncToInt (s.snapshot.ego.speed / s.snapshot.ego.policySpeed * 10) =
      ⌊s.snapshot.ego.speed / s.snapshot.ego.policySpeed * 10⌋ := by
    unfold truncToInt
    rw [if_pos (by positivity)]
  unfold terminalSpeedCost
  rw [if_neg (by simp [hc]), if_neg (by push_neg; constructor <;> linarith)]
  simp only [htr, speedCostMap_eq_specBucket]
  split_ifs <;> rfl

/-- Witness for C8 at a terminal station with speed 35 and policy speed
100. -/
theorem terminalSpeedCost_spec_witness :
    wStation.hasChild = false ∧
    terminalSpeedCost wStation =
      .ok (if 1 ≤ wStation.snapshot.ego.speed / wStation.snapshot.ego.policySpeed then 0
           else specSpeedBucketCost
             ⌊wStation.snapshot.ego.speed / wStation.snapshot.ego.policySpeed * 10⌋) :=
  ⟨by decide, terminalSpeedCost_spec wStation (by decide) (by decide) (by decide)⟩

/-- One refresh of the optimal parent agrees with the specification
choice: the minimum-cost current parent under the back, right, left tie
order, except that a previously cached strictly cheaper optimal entry is
retained. -/
theorem updateOptimalParent_eq_spec (st : Station)
    (h : st.leftParent.isSome ∨ st.backParent.isSome ∨ st.rightParent.isSome) :
    ∃ p, specOptimalAfterUpdate st = some p ∧
      updateOptimalParent st = some { st with optimalParent := some p, snapshot := p.snapshot } := by
  rcases hL : st.leftParent with _ | lp <;>
  rcases hB : st.backParent with _ | bp <;>
  rcases hR : st.rightParent with _ | rp <;>
  rcases hO : st.optimalParent with _ | p0 <;>
    simp only [updateOptimalParent, specOptimalAfterUpdate, minParentBRL, pickMinParent,
      hL, hB, hR, hO] <;>
    (try split_ifs) <;>
    (try dsimp only) <;>
    (try split_ifs) <;>
    (try simp_all) <;>
    (try first
      | linarith
      | exact fun hlt => absurd hlt (by linarith))

/-- C2 amended: whenever a station gains a parent, the refreshed optimal
parent is the current parent of minimum cost-to-come with ties preferring
the back parent and then the right parent over the left parent, except
that a previously cached optimal entry with strictly smaller cost is
retained; the station snapshot is set to the snapshot of the chosen
entry. -/
theorem updateParent_optimal_rule (s : Station) (snap : Snapshot) (c : ℚ) (pid : Nat) :
    (∃ s1, updateLeftParent s snap c pid = some s1 ∧
       ∃ p, specOptimalAfterUpdate { s with leftParent := some ⟨snap, c, pid⟩ } = some p ∧
         s1.optimalParent = some p ∧ s1.snapshot = p.snapshot) ∧
    (∃ s1, updateBackParent s snap c pid = some s1 ∧
       ∃ p, specOptimalAfterUpdate { s with backParent := some ⟨snap, c, pid⟩ } = some p ∧
         s1.optimalParent = some p ∧ s1.snapshot = p.snapshot) ∧
    (∃ s1, updateRightParent s snap c pid = some s1 ∧
       ∃ p, specOptimalAfterUpdate { s with rightParent := some ⟨snap, c, pid⟩ } = some p ∧
         s1.optimalParent = some p ∧ s1.snapshot = p.snapshot) := by
  refine ⟨?_, ?_, ?_⟩
  · obtain ⟨p, h1, h2⟩ := updateOptimalParent_eq_spec
      { s with leftParent := some ⟨snap, c, pid⟩ } (by left; simp)
    exact ⟨_, h2, p, h1, rfl, rfl⟩
  · obtain ⟨p, h1, h2⟩ := updateOptimalParent_eq_spec
      { s with backParent := some ⟨snap, c, pid⟩ } (by right; left; simp)
    exact ⟨_, h2, p, h1, rfl, rfl⟩
  · obtain ⟨p, h1, h2⟩ := updateOptimalParent_eq_spec
      { s with rightParent := some ⟨snap, c, pid⟩ } (by right; right; simp)
    exact ⟨_, h2, p, h1, rfl, rfl⟩

/-- Counterexample for C2 as stated: after a left parent and a right
parent arrive with the same cost-to-come 5, the code keeps the right
parent as the optimal parent, while the claim requires the tie to prefer
the left parent. -/
theorem updateParent_tie_counterexample :
    exStation2.map (fun s => s.leftParent) = some (some ⟨exSnapA, 5, 1⟩) ∧
    exStation2.map (fun s => s.rightParent) = some (some ⟨exSnapB, 5, 2⟩) ∧
    exStation2.map (fun s => s.optimalParent) = some (some ⟨exSnapB, 5, 2⟩) ∧
    (⟨exSnapB, 5, 2⟩ : ParentLink) ≠ ⟨exSnapA, 5, 1⟩ :=
  ⟨by decide, by decide, by decide, by decide⟩

theorem selectLoop_min (costOf : Station → Except PlanError ℚ) (tbl : List Station) :
    ∀ (acc : Option (Station × ℚ)) (r : Station × ℚ),
    selectLoop costOf tbl acc = .ok (some r) →
    (∀ s c, acc = some (s, c) → costOf s = .ok c ∧ s.hasChild = false) →
    (costOf r.1 = .ok r.2 ∧ r.1.hasChild = false) ∧
    r.2 ≤ accCost acc ∧
    ∀ t ∈ tbl, t.hasChild = false → ∃ ct, costOf t = .ok ct ∧ r.2 ≤ ct := by
  induction tbl with
  | nil =>
    intro acc r h hacc
    simp only [selectLoop, Except.ok.injEq] at h
    subst h
    exact ⟨hacc r.1 r.2 rfl, le_refl _, by simp⟩
  | cons s rest ih =>
    intro acc r h hacc
    by_cases hch : s.hasChild
    · rw [selectLoop, if_pos hch] at h
      obtain ⟨hr, hle, hall⟩ := ih acc r h hacc
      refine ⟨hr, hle, ?_⟩
      intro t ht htc
      rcases List.mem_cons.mp ht with hts | htr
      · subst hts; simp [hch] at htc
      · exact hall t htr htc
    · rw [selectLoop, if_neg hch] at h
      rcases hcs : costOf s with e | c
      · rw [hcs] at h; exact absurd h (by simp)
      · rw [hcs] at h
        dsimp only at h
        by_cases hlt : c < accCost acc
        · rw [if_pos hlt] at h
          obtain ⟨hr, hle, hall⟩ := ih (some (s, c)) r h
            (by intro s2 c2 heq; injection heq with heq2; injection heq2 with hs hc;
                subst hs; subst hc; exact ⟨hcs, by simpa using hch⟩)
          refine ⟨hr, le_trans hle (le_of_lt hlt), ?_⟩
          intro t ht htc
          rcases List.mem_cons.mp ht with hts | htr
          · subst hts; exact ⟨c, hcs, by simpa using hle⟩
          · exact hall t htr htc
        · rw [if_neg hlt] at h
          obtain ⟨hr, hle, hall⟩ := ih acc r h hacc
          refine ⟨hr, hle, ?_⟩
          intro t ht htc
          rcases List.mem_cons.mp ht with hts | htr
          · subst hts
            exact ⟨c, hcs, le_trans hle (not_lt.mp hlt)⟩
          · exact hall t htr htc

theorem selectOptimalTerminal_min (costOf : Station → Except PlanError ℚ)
    (tbl : List Station) (s : Station)
    (h : selectOptimalTerminal costOf tbl = .ok s) :
    s.hasChild = false ∧
    ∃ cs, costOf s = .ok cs ∧
      ∀ t ∈ tbl, t.hasChild = false → ∃ ct, costOf t = .ok ct ∧ cs ≤ ct := by
  unfold selectOptimalTerminal at h
  rcases hsel : selectLoop costOf tbl none with e | o
  · rw [hsel] at h; exact absurd h (by simp)
  · rw [hsel] at h
    rcases o with _ | sc
    · exact absurd h (by simp)
    · dsimp only at h
      by_cases hp : sc.1.hasParent
      · rw [if_pos hp] at h
        injection h with hs
        obtain ⟨hr, _, hall⟩ := selectLoop_min costOf tbl none sc hsel (by intro _ _ heq; cases heq)
        subst hs
        exact ⟨hr.2, sc.2, hr.1, hall⟩
      · rw [if_neg hp] at h; exact absurd h (by simp)

/-- C1: whenever the terminal selection of selectOptimalPath returns a
station, that station is a terminal (no children) and its total cost,
cost-to-come plus terminal speed cost plus terminal distance cost, is
less than or equal to the total cost of every other terminal of the
station table; since the total cost of a root-to-terminal path is a
function of its terminal, the returned path has minimal total cost among
all root-to-terminal paths of the graph. -/
theorem selectOptimalPath_min_cost (cfg rd rcd : ℚ) (tbl : List Station) (s : Station)
    (h : selectOptimalTerminal (costFromRootToTerminal cfg rd rcd) tbl = .ok s) :
    s.hasChild = false ∧
    ∃ cs, costFromRootToTerminal cfg rd rcd s = .ok cs ∧
      ∀ t ∈ tbl, t.hasChild = false →
        ∃ ct, costFromRootToTerminal cfg rd rcd t = .ok ct ∧ cs ≤ ct :=
  selectOptimalTerminal_min (costFromRootToTerminal cfg rd rcd) tbl s h

/-- Witness for C1 on a concrete two-terminal table. -/
theorem selectOptimalPath_min_cost_witness :
    selectOptimalTerminal (costFromRootToTerminal 150 0 50) [wTermA, wTermB] = .ok wTermB ∧
    (wTermB.hasChild = false ∧
     ∃ cs, costFromRootToTerminal 150 0 50 wTermB = .ok cs ∧
       ∀ t ∈ [wTermA, wTermB], t.hasChild = false →
         ∃ ct, costFromRootToTerminal 150 0 50 t = .ok ct ∧ cs ≤ ct) :=
  ⟨by decide, selectOptimalPath_min_cost 150 0 50 [wTermA, wTermB] wTermB (by decide)⟩

theorem setVehicle_table (tl : TrafficLattice) (n : Nat) (v : Option Nat) :
    (setVehicle tl n v).table = tl.table := rfl

theorem setVehicle_range (tl : TrafficLattice) (n : Nat) (v : Option Nat) :
    (setVehicle tl n v).range = tl.range := rfl

theorem nid_setFn (n : Nat) (v : Option Nat) (r : NodeRec) :
    (if r.nid = n then { r with vehicle := v } else r).nid = r.nid := by
  split <;> rfl

theorem setVehicle_nid_map (tl : TrafficLattice) (n : Nat) (v : Option Nat) :
    ((setVehicle tl n v).nodes.map (fun r => r.nid)) = tl.nodes.map (fun r => r.nid) := by
  simp only [setVehicle, List.map_map]
  apply List.map_congr_left
  intro r _
  exact nid_setFn n v r

theorem nodupNids_setVehicle (tl : TrafficLattice) (n : Nat) (v : Option Nat) :
    nodupNids (setVehicle tl n v) ↔ nodupNids tl := by
  unfold nodupNids
  rw [setVehicle_nid_map]

theorem findNode_setVehicle (tl : TrafficLattice) (n : Nat) (v : Option Nat) (k : Nat) :
    findNode (setVehicle tl n v) k =
      (findNode tl k).map (fun r => if r.nid = n then { r with vehicle := v } else r) := by
  unfold findNode setVehicle
  obtain ⟨ns, tb, rg⟩ := tl
  simp only
  rw [List.find?_map]
  have hp : ((fun (r : NodeRec) => decide (r.nid = k)) ∘ fun (r : NodeRec) =>
      if r.nid = n then { r with vehicle := v } else r) =
      (fun (r : NodeRec) => decide (r.nid = k)) := by
    funext r
    simp [Function.comp, nid_setFn]
  rw [hp]

theorem findNode_nid (tl : TrafficLattice) (k : Nat) (r : NodeRec)
    (h : findNode tl k = some r) : r.nid = k := by
  have := List.find?_some h
  simpa using this

theorem findNode_mem (tl : TrafficLattice) (k : Nat) (r : NodeRec)
    (h : findNode tl k = some r) : r ∈ tl.nodes :=
  List.mem_of_find?_eq_some h

theorem occupant_setVehicle_ne (tl : TrafficLattice) (n : Nat) (v : Option Nat) (k : Nat)
    (h : ¬ k = n) : occupant (setVehicle tl n v) k = occupant tl k := by
  unfold occupant
  rw [findNode_setVehicle]
  rcases hf : findNode tl k with _ | r
  · rfl
  · have hk : r.nid = k := findNode_nid tl k r hf
    have : ¬ r.nid = n := by rw [hk]; exact h
    simp [this]

theorem occupant_setVehicle_self (tl : TrafficLattice) (n : Nat) (v : Option Nat)
    (h : (findNode tl n).isSome) : occupant (setVehicle tl n v) n = v := by
  unfold occupant
  rw [findNode_setVehicle]
  rcases hf : findNode tl n with _ | r
  · rw [hf] at h; simp at h
  · have hk : r.nid = n := findNode_nid tl n r hf
    simp [hk]

theorem setVehicle_eq_self (tl : TrafficLattice) (n : Nat) (v : Option Nat)
    (h : ∀ r ∈ tl.nodes, r.nid = n → r.vehicle = v) :
    setVehicle tl n v = tl := by
  unfold setVehicle
  obtain ⟨ns, tb, rg⟩ := tl
  simp only [TrafficLattice.mk.injEq, and_true]
  nth_rewrite 2 [show ns = ns.map id from (List.map_id ns).symm]
  apply List.map_congr_left
  intro r hr
  by_cases hn : r.nid = n
  · have hv := h r hr hn
    rw [if_pos hn, ← hv]
    rfl
  · simp [hn]

theorem setVehicle_comm (tl : TrafficLattice) (m n : Nat) (v w : Option Nat)
    (h : ¬ m = n) :
    setVehicle (setVehicle tl m v) n w = setVehicle (setVehicle tl n w) m v := by
  unfold setVehicle
  obtain ⟨ns, tb, rg⟩ := tl
  simp only [List.map_map, TrafficLattice.mk.injEq, and_true]
  apply List.map_congr_left
  intro r _
  by_cases h1 : r.nid = m <;> by_cases h2 : r.nid = n <;>
    simp_all [Function.comp]

theorem setVehicle_setVehicle_same (tl : TrafficLattice) (n : Nat) (v w : Option Nat) :
    setVehicle (setVehicle tl n v) n w = setVehicle tl n w := by
  unfold setVehicle
  obtain ⟨ns, tb, rg⟩ := tl
  simp only [List.map_map, TrafficLattice.mk.injEq, and_true]
  apply List.map_congr_left
  intro r _
  by_cases h1 : r.nid = n <;> simp_all [Function.comp]

theorem vehicle_none_of_occupant_none (tl : TrafficLattice) (hn : nodupNids tl)
    (r : NodeRec) (hr : r ∈ tl.nodes) (h : ¬ (occupant tl r.nid).isSome = true) :
    r.vehicle = none := by
  rcases hf : findNode tl r.nid with _ | r2
  · exfalso
    have : ∀ x ∈ tl.nodes, ¬ ((x.nid = r.nid : Bool) = true) := by
      intro x hx
      exact fun hc => by
        have := List.find?_eq_none.mp hf x hx
        exact this hc
    exact (this r hr) (by simp)
  · have h2 : r2 ∈ tl.nodes := findNode_mem tl r.nid r2 hf
    have hnid : r2.nid = r.nid := findNode_nid tl r.nid r2 hf
    have hrr : r2 = r := List.inj_on_of_nodup_map hn h2 hr hnid
    unfold occupant at h
    rw [hf] at h
    simp only [Option.some_bind, Option.not_isSome_iff_eq_none] at h
    rw [← hrr]
    exact h


theorem any_congr_mem {α : Type} (l : List α) (p q : α → Bool)
    (h : ∀ x ∈ l, p x = q x) : l.any p = l.any q := by
  induction l with
  | nil => rfl
  | cons a rest ih =>
    simp only [List.any_cons]
    rw [h a (List.mem_cons_self a rest), ih (fun x hx => h x (List.mem_cons_of_mem a hx))]

theorem claimNodes_table (v : Nat) : ∀ (l : List Nat) (tl : TrafficLattice),
    (claimNodes v l tl).2.table = tl.table := by
  intro l
  induction l with
  | nil => intro tl; rfl
  | cons n rest ih =>
    intro tl
    rw [claimNodes]
    by_cases ho : (occupant tl n).isSome
    · rw [if_pos ho]
    · rw [if_neg ho, ih]
      exact setVehicle_table tl n (some v)

theorem claimNodes_range (v : Nat) : ∀ (l : List Nat) (tl : TrafficLattice),
    (claimNodes v l tl).2.range = tl.range := by
  intro l
  induction l with
  | nil => intro tl; rfl
  | cons n rest ih =>
    intro tl
    rw [claimNodes]
    by_cases ho : (occupant tl n).isSome
    · rw [if_pos ho]
    · rw [if_neg ho, ih]
      exact setVehicle_range tl n (some v)

theorem occupant_claimNodes_ne (v : Nat) : ∀ (l : List Nat) (tl : TrafficLattice) (k : Nat),
    k ∉ l → occupant (claimNodes v l tl).2 k = occupant tl k := by
  intro l
  induction l with
  | nil => intro tl k _; rfl
  | cons n rest ih =>
    intro tl k hk
    rw [claimNodes]
    by_cases ho : (occupant tl n).isSome
    · rw [if_pos ho]
    · rw [if_neg ho, ih _ _ (fun hc => hk (List.mem_cons_of_mem n hc))]
      exact occupant_setVehicle_ne tl n (some v) k
        (fun hc => hk (hc ▸ List.mem_cons_self n rest))

theorem claimNodes_flag (v : Nat) : ∀ (l : List Nat) (tl : TrafficLattice), l.Nodup →
    (claimNodes v l tl).1 = l.any (fun n => (occupant tl n).isSome) := by
  intro l
  induction l with
  | nil => intro tl _; rfl
  | cons n rest ih =>
    intro tl hnd
    rw [claimNodes, List.any_cons]
    by_cases ho : (occupant tl n).isSome
    · rw [if_pos ho, ho]
      rfl
    · rw [if_neg ho, ih _ (List.Nodup.of_cons hnd)]
      have hnx : n ∉ rest := (List.nodup_cons.mp hnd).1
      rw [any_congr_mem rest _ (fun k => (occupant tl k).isSome)
        (fun k hk => by
          rw [occupant_setVehicle_ne tl n (some v) k
            (fun hc => hnx (hc ▸ hk))])]
      simp [ho]

theorem clearNodes_char : ∀ (l : List Nat) (tl : TrafficLattice),
    clearNodes l tl =
      { tl with
        nodes := tl.nodes.map fun r => if r.nid ∈ l then { r with vehicle := none } else r } := by
  intro l
  induction l with
  | nil =>
    intro tl
    obtain ⟨ns, tb, rg⟩ := tl
    simp only [clearNodes, List.not_mem_nil, if_false, TrafficLattice.mk.injEq, and_true]
    nth_rewrite 1 [show ns = ns.map id from (List.map_id ns).symm]
    rfl
  | cons n rest ih =>
    intro tl
    rw [clearNodes, ih]
    obtain ⟨ns, tb, rg⟩ := tl
    simp only [setVehicle, List.map_map, TrafficLattice.mk.injEq, and_true]
    apply List.map_congr_left
    intro r _
    by_cases h1 : r.nid = n <;> by_cases h2 : r.nid ∈ rest <;>
      simp_all [Function.comp, List.mem_cons]

theorem rollbackNodes_table (v : Nat) : ∀ (l : List Nat) (tl : TrafficLattice),
    (rollbackNodes v l tl).table = tl.table := by
  intro l
  induction l with
  | nil => intro tl; rfl
  | cons n rest ih =>
    intro tl
    rw [rollbackNodes]
    by_cases ho : occupant tl n = some v
    · rw [if_pos ho, ih]
      exact setVehicle_table tl n none
    · rw [if_neg ho, ih]

theorem rollbackNodes_id (v : Nat) : ∀ (l : List Nat) (tl : TrafficLattice),
    (∀ r ∈ tl.nodes, r.vehicle = some v → r.nid ∉ l) → rollbackNodes v l tl = tl := by
  intro l
  induction l with
  | nil => intro tl _; rfl
  | cons n rest ih =>
    intro tl h
    rw [rollbackNodes]
    have hne : ¬ occupant tl n = some v := by
      intro hc
      unfold occupant at hc
      rcases hf : findNode tl n with _ | r
      · rw [hf] at hc; cases hc
      · rw [hf] at hc
        simp only [Option.some_bind] at hc
        exact (h r (findNode_mem tl n r hf) hc)
          ((findNode_nid tl n r hf) ▸ List.mem_cons_self n rest)
    rw [if_neg hne]
    exact ih tl (fun r hr hv hmem => h r hr hv (List.mem_cons_of_mem n hmem))

theorem rollbackNodes_setVehicle_comm (v : Nat) : ∀ (l : List Nat) (tl : TrafficLattice)
    (m : Nat) (w : Option Nat), m ∉ l →
    rollbackNodes v l (setVehicle tl m w) = setVehicle (rollbackNodes v l tl) m w := by
  intro l
  induction l with
  | nil => intro tl m w _; rfl
  | cons k ks ih =>
    intro tl m w hm
    have hkm : ¬ k = m := fun hc => hm (hc ▸ List.mem_cons_self k ks)
    have hmks : m ∉ ks := fun hc => hm (List.mem_cons_of_mem k hc)
    rw [rollbackNodes, rollbackNodes, occupant_setVehicle_ne tl m w k hkm]
    by_cases ho : occupant tl k = some v
    · rw [if_pos ho, if_pos ho,
        setVehicle_comm tl m k w none (fun hc => hkm hc.symm), ih _ m w hmks]
    · rw [if_neg ho, if_neg ho, ih tl m w hmks]

theorem claim_true_rollback (v : Nat) : ∀ (l : List Nat) (tl tl2 : TrafficLattice),
    l.Nodup → nodupNids tl → (∀ r ∈ tl.nodes, r.vehicle = some v → r.nid ∉ l) →
    claimNodes v l tl = (true, tl2) → rollbackNodes v l tl2 = tl := by
  intro l
  induction l with
  | nil =>
    intro tl tl2 _ _ _ h
    cases h
  | cons n rest ih =>
    intro tl tl2 hnd hnn hns h
    have hnr : n ∉ rest := (List.nodup_cons.mp hnd).1
    rw [claimNodes] at h
    by_cases ho : (occupant tl n).isSome
    · rw [if_pos ho] at h
      injection h with _ h2
      subst h2
      rw [rollbackNodes]
      have hne : ¬ occupant tl n = some v := by
        intro hc
        unfold occupant at hc
        rcases hf : findNode tl n with _ | r
        · rw [hf] at hc; cases hc
        · rw [hf] at hc
          simp only [Option.some_bind] at hc
          exact (hns r (findNode_mem tl n r hf) hc)
            ((findNode_nid tl n r hf) ▸ List.mem_cons_self n rest)
      rw [if_neg hne]
      exact rollbackNodes_id v rest tl
        (fun r hr hv hmem => hns r hr hv (List.mem_cons_of_mem n hmem))
    · rw [if_neg ho] at h
      rcases hf : findNode tl n with _ | r0
      · have hset : setVehicle tl n (some v) = tl := by
          apply setVehicle_eq_self
          intro r hr hrn
          have hnone := List.find?_eq_none.mp hf r hr
          rw [hrn] at hnone
          simp at hnone
        rw [hset] at h
        have hroll := ih tl tl2 (List.Nodup.of_cons hnd) hnn
          (fun r hr hv hmem => hns r hr hv (List.mem_cons_of_mem n hmem)) h
        rw [rollbackNodes]
        have hcc : occupant tl2 n = occupant tl n := by
          have : tl2 = (claimNodes v rest tl).2 := by rw [h]
          rw [this]
          exact occupant_claimNodes_ne v rest tl n hnr
        have hne : ¬ occupant tl2 n = some v := by
          rw [hcc]
          intro hc
          rw [hc] at ho
          simp at ho
        rw [if_neg hne]
        exact hroll
      · have hs1nn : nodupNids (setVehicle tl n (some v)) :=
          (nodupNids_setVehicle tl n (some v)).mpr hnn
        have hs1ns : ∀ r ∈ (setVehicle tl n (some v)).nodes,
            r.vehicle = some v → r.nid ∉ rest := by
          intro r hr hv
          simp only [setVehicle, List.mem_map] at hr
          obtain ⟨r0b, hr0b, hr0beq⟩ := hr
          by_cases hbn : r0b.nid = n
          · rw [← hr0beq, if_pos hbn, hbn]
            exact fun hcon => hnr hcon
          · rw [← hr0beq, if_neg hbn]
            rw [← hr0beq, if_neg hbn] at hv
            exact fun hcon => hns r0b hr0b hv (List.mem_cons_of_mem n hcon)
        have hroll := ih (setVehicle tl n (some v)) tl2
          (List.Nodup.of_cons hnd) hs1nn hs1ns h
        rw [rollbackNodes]
        have hcc : occupant tl2 n = some v := by
          have heq : tl2 = (claimNodes v rest (setVehicle tl n (some v))).2 := by rw [h]
          rw [heq, occupant_claimNodes_ne v rest _ n hnr]
          exact occupant_setVehicle_self tl n (some v) (by rw [hf]; rfl)
        rw [if_pos hcc, rollbackNodes_setVehicle_comm v rest tl2 n none hnr, hroll,
          setVehicle_setVehicle_same]
        apply setVehicle_eq_self
        intro r hr hrn
        exact vehicle_none_of_occupant_none tl hnn r hr (by rw [hrn]; exact ho)


theorem claimNodes_false_char (v : Nat) : ∀ (l : List Nat) (tl tl2 : TrafficLattice),
    nodupNids tl → claimNodes v l tl = (false, tl2) →
    tl2 = { tl with
      nodes := tl.nodes.map fun r => if r.nid ∈ l then { r with vehicle := some v } else r } ∧
    ∀ r ∈ tl.nodes, r.nid ∈ l → r.vehicle = none := by
  intro l
  induction l with
  | nil =>
    intro tl tl2 hnn h
    injection h with _ h2
    subst h2
    constructor
    · obtain ⟨ns, tb, rg⟩ := tl
      simp only [List.not_mem_nil, if_false, TrafficLattice.mk.injEq, and_true, true_and]
      nth_rewrite 1 [show ns = ns.map id from (List.map_id ns).symm]
      rfl
    · intro r _ hmem
      simp at hmem
  | cons n rest ih =>
    intro tl tl2 hnn h
    rw [claimNodes] at h
    by_cases ho : (occupant tl n).isSome
    · rw [if_pos ho] at h
      simp at h
    · rw [if_neg ho] at h
      obtain ⟨hmap, hnone⟩ := ih (setVehicle tl n (some v)) tl2
        ((nodupNids_setVehicle tl n (some v)).mpr hnn) h
      constructor
      · rw [hmap]
        obtain ⟨ns, tb, rg⟩ := tl
        simp only [setVehicle, List.map_map, TrafficLattice.mk.injEq, and_true, true_and]
        apply List.map_congr_left
        intro r _
        by_cases h1 : r.nid = n <;> by_cases h2 : r.nid ∈ rest <;>
          simp_all [Function.comp, List.mem_cons]
      · intro r hr hmem
        by_cases hrn : r.nid = n
        · exact vehicle_none_of_occupant_none tl hnn r hr (by rw [hrn]; exact ho)
        · have hmem2 : r.nid ∈ rest := by
            rcases List.mem_cons.mp hmem with h1 | h2
            · exact absurd h1 hrn
            · exact h2
          have hrimg : r ∈ (setVehicle tl n (some v)).nodes := by
            simp only [setVehicle, List.mem_map]
            exact ⟨r, hr, by rw [if_neg hrn]⟩
          exact hnone r hrimg hmem2

/-- C7: adding a fresh vehicle successfully (code 1) and then deleting it
restores the traffic lattice exactly: every node occupancy and the
vehicle-to-nodes table return to their previous values. -/
theorem addVehicle_deleteVehicle_roundtrip (tl : TrafficLattice) (v : Nat)
    (a b c : Option Nat) (tl2 : TrafficLattice)
    (hnn : nodupNids tl)
    (hadd : addVehicle tl v a b c = (1, tl2)) :
    deleteVehicle tl2 v = (1, tl) := by
  unfold addVehicle at hadd
  by_cases hreg : registered tl v
  · rw [if_pos hreg] at hadd
    simp at hadd
  · rw [if_neg hreg] at hadd
    rcases ha : a.bind (findNode tl) with _ | rn <;> rw [ha] at hadd <;>
    rcases hb : b.bind (findNode tl) with _ | mn <;> rw [hb] at hadd <;>
    rcases hc : c.bind (findNode tl) with _ | hn2 <;> rw [hc] at hadd <;>
      try (dsimp only at hadd; rw [Prod.mk.injEq] at hadd; exact absurd hadd.1 (by decide))
    dsimp only at hadd
    rcases hclaim : claimNodes v (occupiedNodes tl rn mn hn2) tl with ⟨flag, tlc⟩
    rw [hclaim] at hadd
    dsimp only at hadd
    rcases flag with _ | _
    · rw [if_neg (by simp)] at hadd
      injection hadd with _ h2
      obtain ⟨hmapeq, hnone⟩ := claimNodes_false_char v (occupiedNodes tl rn mn hn2) tl tlc
        hnn hclaim
      have htab : tlc.table = tl.table := by
        have := claimNodes_table v (occupiedNodes tl rn mn hn2) tl
        rw [hclaim] at this
        exact this
      have hrange : tlc.range = tl.range := by
        have := claimNodes_range v (occupiedNodes tl rn mn hn2) tl
        rw [hclaim] at this
        exact this
      unfold deleteVehicle
      have htab2 : tl2.table = tl.table ++ [(v, occupiedNodes tl rn mn hn2)] := by
        rw [← h2, htab]
      have hnotv : ∀ e ∈ tl.table, ¬ (e.1 = v) := by
        intro e he hc
        exact hreg (by
          unfold registered
          rw [List.any_eq_true]
          exact ⟨e, he, by simp [hc]⟩)
      have hfnone : tl.table.find? (fun e => e.1 = v) = none := by
        apply List.find?_eq_none.mpr
        intro e he
        simpa using hnotv e he
      have hfind : tl2.table.find? (fun e => e.1 = v) =
          some (v, occupiedNodes tl rn mn hn2) := by
        rw [htab2, List.find?_append, hfnone]
        simp
      rw [hfind]
      have hns2 : tl2.nodes = tl.nodes.map
          (fun r => if r.nid ∈ occupiedNodes tl rn mn hn2 then
            { r with vehicle := some v } else r) := by
        rw [← h2, hmapeq]
      have hclear : clearNodes (occupiedNodes tl rn mn hn2) tl2 =
          { tl2 with nodes := tl.nodes } := by
        rw [clearNodes_char, hns2]
        obtain ⟨ns2, tb2, rg2⟩ := tl2
        simp only [List.map_map, TrafficLattice.mk.injEq, and_true, true_and]
        nth_rewrite 2 [show tl.nodes = tl.nodes.map id from (List.map_id tl.nodes).symm]
        apply List.map_congr_left
        intro r hr
        by_cases h1 : r.nid ∈ occupiedNodes tl rn mn hn2
        · have hv := hnone r hr h1
          simp [Function.comp, h1, ← hv]
        · simp [Function.comp, h1]
      have hfil : tl2.table.filter (fun x => ¬ (x.1 = v)) = tl.table := by
        rw [htab2, List.filter_append]
        have h1 : tl.table.filter (fun x => ¬ (x.1 = v)) = tl.table := by
          apply List.filter_eq_self.mpr
          intro e he
          simpa using hnotv e he
        have h2b : ([(v, occupiedNodes tl rn mn hn2)] :
            List (Nat × List Nat)).filter (fun x => ¬ (x.1 = v)) = [] := by
          simp
        rw [h1, h2b, List.append_nil]
      rw [Prod.mk.injEq]
      refine ⟨rfl, ?_⟩
      have hrg2 : tl2.range = tl.range := by rw [← h2]; exact hrange
      rw [hclear, hfil, hrg2]
    · rw [if_pos (by simp)] at hadd
      exfalso
      simp at hadd


/-- C4: for a fresh vehicle id on a well-formed lattice, addVehicle
returns 0 when the rear, mid, or head waypoint cannot be snapped to a
lattice node, -1 when some node the vehicle would occupy already carries
another vehicle id, and 1 otherwise; in the -1 case the lattice is
returned exactly to its state before the call (the partial claim is
rolled back). -/
theorem addVehicle_code_spec (tl : TrafficLattice) (v : Nat) (a b c : Option Nat)
    (hnn : nodupNids tl)
    (hns : ∀ r ∈ tl.nodes, ¬ r.vehicle = some v)
    (hreg : registered tl v = false)
    (hwalk : walkNodupOk tl a b c = true) :
    ((addVehicle tl v a b c).1 =
      (match a.bind (findNode tl), b.bind (findNode tl), c.bind (findNode tl) with
       | some rn, some mn, some hn2 =>
         if (occupiedNodes tl rn mn hn2).any (fun n => (occupant tl n).isSome) then -1 else 1
       | _, _, _ => 0)) ∧
    ((addVehicle tl v a b c).1 = -1 → (addVehicle tl v a b c).2 = tl) := by
  unfold walkNodupOk at hwalk
  unfold addVehicle
  rw [hreg]
  rcases ha : a.bind (findNode tl) with _ | rn <;>
  rcases hb : b.bind (findNode tl) with _ | mn <;>
  rcases hc : c.bind (findNode tl) with _ | hn2 <;>
    try (refine ⟨rfl, fun hcontra => ?_⟩; simp at hcontra)
  rw [ha, hb, hc] at hwalk
  dsimp only at hwalk ⊢
  have hnd : (occupiedNodes tl rn mn hn2).Nodup := of_decide_eq_true hwalk
  have hflag := claimNodes_flag v (occupiedNodes tl rn mn hn2) tl hnd
  rcases hclaim : claimNodes v (occupiedNodes tl rn mn hn2) tl with ⟨flag, tlc⟩
  rw [hclaim] at hflag
  dsimp only at hflag
  rcases hany : (occupiedNodes tl rn mn hn2).any (fun n => (occupant tl n).isSome) with _ | _
  · rw [hany] at hflag
    subst hflag
    constructor
    · simp
    · intro hcontra
      simp at hcontra
  · rw [hany] at hflag
    subst hflag
    refine ⟨by simp, fun _ => ?_⟩
    show rollbackNodes v (occupiedNodes tl rn mn hn2) tlc = tl
    exact claim_true_rollback v (occupiedNodes tl rn mn hn2) tl tlc hnd hnn
      (fun r hr hv => absurd hv (hns r hr)) hclaim

/-- Witness for C4 on a three-node lattice where the mid node is occupied
by vehicle 7, so adding vehicle 9 collides and rolls back. -/
theorem addVehicle_code_spec_witness :
    ((addVehicle w4TL 9 (some 1) (some 2) (some 3)).1 =
      (match (some 1 : Option Nat).bind (findNode w4TL),
             (some 2 : Option Nat).bind (findNode w4TL),
             (some 3 : Option Nat).bind (findNode w4TL) with
       | some rn, some mn, some hn2 =>
         if (occupiedNodes w4TL rn mn hn2).any (fun n => (occupant w4TL n).isSome) then -1 else 1
       | _, _, _ => 0)) ∧
    ((addVehicle w4TL 9 (some 1) (some 2) (some 3)).1 = -1 →
      (addVehicle w4TL 9 (some 1) (some 2) (some 3)).2 = w4TL) :=
  addVehicle_code_spec w4TL 9 (some 1) (some 2) (some 3)
    (by decide) (by decide) (by decide) (by decide)

/-- Witness for C7: vehicle 9 is added on one node and deleted again,
restoring the lattice. -/
theorem addVehicle_delete_witness :
    addVehicle w4TL 9 (some 1) (some 1) (some 1) = (1, w7TL2) ∧
    deleteVehicle w7TL2 9 = (1, w4TL) :=
  ⟨by decide,
   addVehicle_deleteVehicle_roundtrip w4TL 9 (some 1) (some 1) (some 1) w7TL2
     (by decide) (by decide)⟩


theorem frontStepsLoop_eq_walk (tl : TrafficLattice) :
    ∀ (k : Nat) (cur : NodeRec),
      frontStepsLoop tl k cur =
        (match walkSteps tl k cur with
         | none => .error .topologyMismatch
         | some fn => .ok fn) := by
  intro k
  induction k with
  | zero => intro cur; rfl
  | succ m ih =>
    intro cur
    rw [frontStepsLoop, walkSteps]
    rcases lockedFront tl cur with _ | nxt
    · rfl
    · exact ih nxt

/-- C6: for a registered vehicle, isChangingLane walks as many front
steps as the vehicle occupies nodes starting from its rear node and
returns 0, -1, or 1 according to whether the reached node, its left
neighbour, or its right neighbour is the head node, failing with a
topology mismatch in every other case, including when a front link is
missing during the walk; this is exactly the specification-side
classification specChangingLane. -/
theorem isChangingLane_spec (tl : TrafficLattice) (v : Nat) (l : List Nat)
    (h : vehicleNodes tl v = some l) :
    isChangingLane tl v = specChangingLane tl l := by
  unfold vehicleNodes at h
  unfold isChangingLane specChangingLane
  rcases hf : tl.table.find? (fun e => e.1 = v) with _ | e
  · rw [hf] at h
    simp at h
  · rw [hf] at h
    have h2 : e.2 = l := by simpa using h
    subst h2
    rw [hf]
    dsimp only
    rcases hr : e.2.head?.bind (findNode tl) with _ | rearNode <;>
    rcases hh : e.2.getLast?.bind (findNode tl) with _ | headNode <;>
      try rfl
    dsimp only
    rw [frontStepsLoop_eq_walk]
    rcases walkSteps tl e.2.length rearNode with _ | fn <;> rfl

/-- Witness for C6: a vehicle whose recorded rear and head nodes are two
front steps apart is classified as in-lane. -/
theorem isChangingLane_spec_witness :
    vehicleNodes w6TL 5 = some [1, 3] ∧
    isChangingLane w6TL 5 = specChangingLane w6TL [1, 3] ∧
    isChangingLane w6TL 5 = .ok 0 :=
  ⟨by decide, isChangingLane_spec w6TL 5 [1, 3] (by decide), by decide⟩



theorem foldl_clear_char : ∀ (es : List (Nat × List Nat)) (s : TrafficLattice),
    (es.foldl (fun s2 e => clearNodes e.2 s2) s) =
      { s with nodes := s.nodes.map fun r =>
          if es.any (fun e => r.nid ∈ e.2) then { r with vehicle := none } else r } := by
  intro es
  induction es with
  | nil =>
    intro s
    obtain ⟨ns, tb, rg⟩ := s
    simp only [List.foldl_nil, List.any_nil, if_false, Bool.false_eq_true,
      TrafficLattice.mk.injEq, and_true, true_and]
    nth_rewrite 1 [show ns = ns.map id from (List.map_id ns).symm]
    rfl
  | cons e rest ih =>
    intro s
    rw [List.foldl_cons, ih, clearNodes_char]
    obtain ⟨ns, tb, rg⟩ := s
    simp only [setVehicle, List.map_map, TrafficLattice.mk.injEq, and_true, true_and]
    apply List.map_congr_left
    intro r _
    dsimp only [Function.comp]
    by_cases h1 : r.nid ∈ e.2
    · rw [if_pos h1]
      simp [h1]
    · rw [if_neg h1]
      simp only [List.any_cons]
      have hd : decide (r.nid ∈ e.2) = false := by simp [h1]
      simp only [hd, Bool.false_or]

theorem clearRegistered_clears (tl : TrafficLattice) (hw : occupancyWithinTable tl) :
    ∀ r ∈ (clearRegistered tl).nodes, r.vehicle = none := by
  intro r hr
  unfold clearRegistered at hr
  rw [foldl_clear_char] at hr
  simp only [List.mem_map] at hr
  obtain ⟨r0, hr0, heq⟩ := hr
  by_cases hc : tl.table.any (fun e => r0.nid ∈ e.2)
  · rw [← heq, if_pos hc]
  · rw [← heq, if_neg hc]
    rcases hw r0 hr0 with hnone | ⟨e, he, hev, hemem⟩
    · exact hnone
    · exact absurd (List.any_eq_true.mpr ⟨e, he, by simp [hemem]⟩) hc

theorem addVehicle_code_cases (tl : TrafficLattice) (v : Nat) (a b c : Option Nat) :
    (addVehicle tl v a b c).1 = 0 ∨ (addVehicle tl v a b c).1 = 1 ∨
      (addVehicle tl v a b c).1 = -1 := by
  unfold addVehicle
  by_cases hreg : registered tl v
  · rw [if_pos hreg]
    left; rfl
  · rw [if_neg hreg]
    rcases a.bind (findNode tl) with _ | rn <;>
    rcases b.bind (findNode tl) with _ | mn <;>
    rcases c.bind (findNode tl) with _ | hn2 <;>
      try (left; rfl)
    dsimp only
    by_cases hcl : (claimNodes v (occupiedNodes tl rn mn hn2) tl).1 = true
    · rw [if_pos hcl]
      right; right; rfl
    · rw [if_neg hcl]
      right; left; rfl

theorem registered_addVehicle_mono (tl : TrafficLattice) (v : Nat) (a b c : Option Nat)
    (u : Nat) (h : registered tl u = true) :
    registered (addVehicle tl v a b c).2 u = true := by
  unfold addVehicle
  by_cases hreg : registered tl v
  · rw [if_pos hreg]
    exact h
  · rw [if_neg hreg]
    rcases a.bind (findNode tl) with _ | rn <;>
    rcases b.bind (findNode tl) with _ | mn <;>
    rcases c.bind (findNode tl) with _ | hn2 <;>
      try exact h
    dsimp only
    by_cases hcl : (claimNodes v (occupiedNodes tl rn mn hn2) tl).1 = true
    · rw [if_pos hcl]
      unfold registered
      rw [rollbackNodes_table, claimNodes_table]
      exact h
    · rw [if_neg hcl]
      unfold registered
      dsimp only
      rw [List.any_append, claimNodes_table]
      unfold registered at h
      rw [h]
      rfl

theorem addVehicle_one_registered (tl : TrafficLattice) (v : Nat) (a b c : Option Nat)
    (h : (addVehicle tl v a b c).1 = 1) :
    registered (addVehicle tl v a b c).2 v = true := by
  unfold addVehicle at h ⊢
  by_cases hreg : registered tl v
  · rw [if_pos hreg] at h
    simp at h
  · rw [if_neg hreg] at h ⊢
    rcases ha : a.bind (findNode tl) with _ | rn <;> rw [ha] at h <;>
    rcases hb : b.bind (findNode tl) with _ | mn <;> rw [hb] at h <;>
    rcases hc : c.bind (findNode tl) with _ | hn2 <;> rw [hc] at h <;>
      try (exact absurd (show (0 : Int) = 1 from h) (by decide))
    dsimp only at h ⊢
    by_cases hcl : (claimNodes v (occupiedNodes tl rn mn hn2) tl).1 = true
    · rw [if_pos hcl] at h
      exact absurd (show (-1 : Int) = 1 from h) (by decide)
    · rw [if_neg hcl]
      unfold registered
      dsimp only
      rw [List.any_append]
      simp



theorem registerLoop_true_iff {W R : Type} (o : LatticeOracle W R) :
    ∀ (vs : List (Nat × R)) (tl : TrafficLattice) (removed : List Nat),
      (registerLoop o vs tl removed).1 = true ↔ (-1 : Int) ∉ regTrace o vs tl := by
  intro vs
  induction vs with
  | nil =>
    intro tl removed
    simp [registerLoop, regTrace]
  | cons v rest ih =>
    intro tl removed
    have hstep : registerLoop o (v :: rest) tl removed =
        if (regStep o tl v).1 = 0 then
          registerLoop o rest (regStep o tl v).2 (removed ++ [v.1])
        else if (regStep o tl v).1 = -1 then (false, (regStep o tl v).2, removed)
        else registerLoop o rest (regStep o tl v).2 removed := rfl
    have htr : regTrace o (v :: rest) tl =
        if (regStep o tl v).1 = -1 then [(regStep o tl v).1]
        else (regStep o tl v).1 :: regTrace o rest (regStep o tl v).2 := rfl
    rw [hstep, htr]
    by_cases h0 : (regStep o tl v).1 = 0
    · rw [if_pos h0, if_neg (by rw [h0]; decide), ih]
      constructor
      · intro hmem hcontra
        rcases List.mem_cons.mp hcontra with h1 | h1
        · rw [h0] at h1
          exact absurd h1 (by decide)
        · exact hmem h1
      · intro hmem h1
        exact hmem (List.mem_cons.mpr (Or.inr h1))
    · rw [if_neg h0]
      by_cases h1 : (regStep o tl v).1 = -1
      · rw [if_pos h1, if_pos h1]
        simp [h1]
      · rw [if_neg h1, if_neg h1, ih]
        constructor
        · intro hmem hcontra
          rcases List.mem_cons.mp hcontra with h2 | h2
          · exact h1 h2.symm
          · exact hmem h2
        · intro hmem h2
          exact hmem (List.mem_cons.mpr (Or.inr h2))

theorem registerLoop_registered_mono {W R : Type} (o : LatticeOracle W R) :
    ∀ (vs : List (Nat × R)) (tl : TrafficLattice) (removed : List Nat) (u : Nat),
      registered tl u = true → registered (registerLoop o vs tl removed).2.1 u = true := by
  intro vs
  induction vs with
  | nil =>
    intro tl removed u h
    exact h
  | cons v rest ih =>
    intro tl removed u h
    have hstep : registerLoop o (v :: rest) tl removed =
        if (regStep o tl v).1 = 0 then
          registerLoop o rest (regStep o tl v).2 (removed ++ [v.1])
        else if (regStep o tl v).1 = -1 then (false, (regStep o tl v).2, removed)
        else registerLoop o rest (regStep o tl v).2 removed := rfl
    rw [hstep]
    have hmono : registered (regStep o tl v).2 u = true :=
      registered_addVehicle_mono tl v.1 _ _ _ u h
    by_cases h0 : (regStep o tl v).1 = 0
    · rw [if_pos h0]
      exact ih _ _ u hmono
    · rw [if_neg h0]
      by_cases h1 : (regStep o tl v).1 = -1
      · rw [if_pos h1]
        exact hmono
      · rw [if_neg h1]
        exact ih _ _ u hmono

theorem registerLoop_removed_sub {W R : Type} (o : LatticeOracle W R) :
    ∀ (vs : List (Nat × R)) (tl : TrafficLattice) (removed : List Nat) (u : Nat),
      u ∈ removed → u ∈ (registerLoop o vs tl removed).2.2 := by
  intro vs
  induction vs with
  | nil =>
    intro tl removed u h
    exact h
  | cons v rest ih =>
    intro tl removed u h
    have hstep : registerLoop o (v :: rest) tl removed =
        if (regStep o tl v).1 = 0 then
          registerLoop o rest (regStep o tl v).2 (removed ++ [v.1])
        else if (regStep o tl v).1 = -1 then (false, (regStep o tl v).2, removed)
        else registerLoop o rest (regStep o tl v).2 removed := rfl
    rw [hstep]
    by_cases h0 : (regStep o tl v).1 = 0
    · rw [if_pos h0]
      exact ih _ _ u (List.mem_append_left _ h)
    · rw [if_neg h0]
      by_cases h1 : (regStep o tl v).1 = -1
      · rw [if_pos h1]
        exact h
      · rw [if_neg h1]
        exact ih _ _ u h

theorem registerLoop_coverage {W R : Type} (o : LatticeOracle W R) :
    ∀ (vs : List (Nat × R)) (tl : TrafficLattice) (removed : List Nat),
      (registerLoop o vs tl removed).1 = true →
      ∀ v ∈ vs, registered (registerLoop o vs tl removed).2.1 v.1 = true ∨
        v.1 ∈ (registerLoop o vs tl removed).2.2 := by
  intro vs
  induction vs with
  | nil =>
    intro tl removed _ v hv
    exact absurd hv (List.not_mem_nil v)
  | cons w rest ih =>
    intro tl removed htrue v hv
    have hstep : registerLoop o (w :: rest) tl removed =
        if (regStep o tl w).1 = 0 then
          registerLoop o rest (regStep o tl w).2 (removed ++ [w.1])
        else if (regStep o tl w).1 = -1 then (false, (regStep o tl w).2, removed)
        else registerLoop o rest (regStep o tl w).2 removed := rfl
    rw [hstep] at htrue ⊢
    by_cases h0 : (regStep o tl w).1 = 0
    · rw [if_pos h0] at htrue ⊢
      rcases List.mem_cons.mp hv with hveq | hvrest
      · subst hveq
        right
        exact registerLoop_removed_sub o rest _ _ v.1
          (List.mem_append_right _ (List.mem_singleton.mpr rfl))
      · exact ih _ _ htrue v hvrest
    · rw [if_neg h0] at htrue ⊢
      by_cases h1 : (regStep o tl w).1 = -1
      · rw [if_pos h1] at htrue
        exact absurd (show false = true from htrue) (by decide)
      · rw [if_neg h1] at htrue ⊢
        rcases List.mem_cons.mp hv with hveq | hvrest
        · subst hveq
          left
          have hone : (regStep o tl v).1 = 1 := by
            rcases addVehicle_code_cases tl v.1 (o.closestNode tl (o.waypointsOf v.2).1)
                (o.closestNode tl (o.waypointsOf v.2).2.1)
                (o.closestNode tl (o.waypointsOf v.2).2.2) with hc | hc | hc
            · exact absurd hc h0
            · exact hc
            · exact absurd hc h1
          have hreg1 : registered (regStep o tl v).2 v.1 = true :=
            addVehicle_one_registered tl v.1 _ _ _ hone
          exact registerLoop_registered_mono o rest _ _ v.1 hreg1
        · exact ih _ _ htrue v hvrest

/-- C5: TrafficLattice::moveTrafficForward fails with the set-mismatch
error exactly when the updated vehicle id set differs from the registered
id set; given well-formed occupancy it clears every recorded node
occupancy, and when the root snaps it returns the result of re-registering
the vehicles on the lattice shortened then extended around the recomputed
root and range; the returned boolean is true if and only if no collision
code was produced during re-registration, in which case every vehicle is
either registered on the result or reported as dropped. -/
theorem moveTrafficForward_spec {W R : Type} (o : LatticeOracle W R)
    (tl : TrafficLattice) (vs : List (Nat × R)) (hw : occupancyWithinTable tl) :
    (moveTrafficForward o tl vs = .error .setMismatch ↔
      sameIdSet (tl.table.map (fun e => e.1)) (vs.map (fun v => v.1)) = false) ∧
    (∀ r ∈ (clearRegistered tl).nodes, r.vehicle = none) ∧
    (∀ sr startNode, o.startAndRange vs = some sr →
      (o.closestNode (clearRegistered tl) sr.1).bind (findNode (clearRegistered tl)) =
        some startNode →
      sameIdSet (tl.table.map (fun e => e.1)) (vs.map (fun v => v.1)) = true →
      moveTrafficForward o tl vs = .ok (registerVehicles o
        (o.extendOp sr.2 (o.shortenOp ((clearRegistered tl).range - startNode.distance)
          (clearRegistered tl))) vs)) ∧
    (∀ tl2, ((registerVehicles o tl2 vs).1 = true ↔
        (-1 : Int) ∉ regTrace o vs { tl2 with table := [] }) ∧
      ((registerVehicles o tl2 vs).1 = true →
        ∀ v ∈ vs, registered (registerVehicles o tl2 vs).2.1 v.1 = true ∨
          v.1 ∈ (registerVehicles o tl2 vs).2.2)) := by
  have hmtf : moveTrafficForward o tl vs =
      if sameIdSet (tl.table.map (fun e => e.1)) (vs.map (fun v => v.1)) = false then
        .error .setMismatch
      else
        match o.startAndRange vs with
        | none => .error .startAndRangeFailed
        | some sr =>
          match (o.closestNode (clearRegistered tl) sr.1).bind
              (findNode (clearRegistered tl)) with
          | none => .error .startNotFound
          | some startNode =>
            .ok (registerVehicles o
              (o.extendOp sr.2 (o.shortenOp ((clearRegistered tl).range - startNode.distance)
                (clearRegistered tl))) vs) := rfl
  refine ⟨?_, clearRegistered_clears tl hw, ?_, ?_⟩
  · by_cases hs : sameIdSet (tl.table.map (fun e => e.1)) (vs.map (fun v => v.1)) = false
    · rw [hmtf, if_pos hs]
      exact ⟨fun _ => hs, fun _ => rfl⟩
    · rw [hmtf, if_neg hs]
      rcases hsr : o.startAndRange vs with _ | sr
      · simp [hs]
      · dsimp only
        rcases hsn : (o.closestNode (clearRegistered tl) sr.1).bind
            (findNode (clearRegistered tl)) with _ | sn <;> simp [hs]
  · intro sr startNode hsr hsn hset
    rw [hmtf, if_neg (by rw [hset]; decide), hsr]
    dsimp only
    rw [hsn]
  · intro tl2
    exact ⟨registerLoop_true_iff o vs { tl2 with table := [] } [],
      fun h v hv => registerLoop_coverage o vs { tl2 with table := [] } [] h v hv⟩

theorem moveTrafficForward_spec_witness :
    occupancyWithinTable wTL5 ∧
    (moveTrafficForward wOracle wTL5 wVs5 = .error .setMismatch ↔
      sameIdSet (wTL5.table.map (fun e => e.1)) (wVs5.map (fun v => v.1)) = false) :=
  ⟨by decide, (moveTrafficForward_spec wOracle wTL5 wVs5 (by decide)).1⟩

end ConformalLattice
